import Mathlib

/-
Shallow embedding of src/yurex.c (Haiku driver for the Maywa-Denki/KAYAC
YUREX BBU sensor).  Machine integers are modelled as Nat with explicit
reduction modulo 2^64 where the C code operates on uint64 / size_t values
and overflow or wraparound can matter.  Byte buffers are lists of Nat
(each element a byte value < 256 when the buffer holds real bytes).
Calls into the external USB transport (send_request, queue_interrupt,
cancel_queued_transfers, set_configuration) are modelled as emitted
command events, since the transport is an external collaborator.
-/

/-- Modulus of the C uint64 / size_t arithmetic used by the driver. -/
def UINT64_MOD : Nat := 2 ^ 64

-- yurex command definition (src/yurex.c lines 115-122)
def CMD_NONE : Nat := 0xf0
def CMD_EOF : Nat := 0x0d
def CMD_ACK : Nat := 0x21
def CMD_MODE : Nat := 0x41
def CMD_VALUE : Nat := 0x43
def CMD_READ : Nat := 0x52
def CMD_WRITE : Nat := 0x53
def CMD_PADDING : Nat := 0xff

-- device type constants (src/yurex.c lines 84-85)
def YUREX_DEVICE_TYPE_BBU : Nat := 0
def YUREX_DEVICE_TYPE_ANIME : Nat := 1

-- Haiku status codes as used by the driver
def B_OK : Int := 0
def B_ERROR : Int := -1

/-- Device instance state (struct _device, src/yurex.c lines 68-81).
The transport handles (udev, ep), the semaphore and the name strings are
externals; the fields the protocol logic reads and writes are kept.
`ep_detect` is the int flag that doubles as the streaming gate. -/
structure DevState where
  udev : Nat
  ifno : Nat
  ep_detect : Nat
  ep_address : Nat
  bbu : Nat
  anime : Nat
deriving DecidableEq

/-- Per-open-session state (struct _dev_open, src/yurex.c lines 86-91). -/
structure DevOpen where
  type : Nat
  buf : List Nat
  buf_len : Nat
deriving DecidableEq

/-- Commands the driver issues to the external USB transport. -/
inductive Cmd where
  | setConfiguration
  | setMode (val : Nat)
  | readRequest
  | writeRequest (bbu : Nat)
  | armReceive
deriving DecidableEq

/-- Global registry of devices (gDeviceList / gDeviceCount,
src/yurex.c lines 93-97), with devices identified by their usb id. -/
structure Registry where
  list : List Nat
  count : Nat
deriving DecidableEq

/-- One uint64 accumulation step of the BBU decode loop
(src/yurex.c lines 150-151): `bbu <<= 8; bbu += req[i];`. -/
def bbuStep (acc b : Nat) : Nat := (acc * 256 % UINT64_MOD + b) % UINT64_MOD

/-- Decode of the counter value from an inbound packet: the loop over
req[1]..req[5] in yurex_callback (src/yurex.c lines 148-152). -/
def decodeBBU (req : List Nat) : Nat := ((req.drop 1).take 5).foldl bbuStep 0

/-- Byte at index i of a buffer, as the C pointer indexing req[i] reads it
(buffers in scope always cover the indexed range). -/
def byteAt (l : List Nat) (i : Nat) : Nat := l.getD i 0

/-- Completion handler yurex_callback (src/yurex.c lines 135-163).
Returns the updated device state and the commands issued during the
invocation (a solicited read request and/or the interrupt re-arm).
The transport status and actualLength arguments of the C callback are
ignored by the code, and the EOF check on req[6] only logs. -/
def yurex_callback (dev : DevState) (req : List Nat) : DevState × List Cmd :=
  let dev1 := if byteAt req 0 = CMD_VALUE ∨ byteAt req 0 = CMD_READ then
    { dev with bbu := decodeBBU req } else dev
  let cmds1 : List Cmd :=
    if byteAt req 0 = CMD_VALUE ∨ byteAt req 0 = CMD_READ then []
    else if byteAt req 0 = CMD_ACK ∧ byteAt req 1 = CMD_WRITE then
      [Cmd.readRequest]
    else []
  let cmds2 := if dev1.ep_detect ≠ 0 then cmds1 ++ [Cmd.armReceive] else cmds1
  (dev1, cmds2)

/-- Packet built by yurex_set_mode (src/yurex.c lines 165-187). -/
def yurex_set_mode_packet (val : Nat) : List Nat :=
  [CMD_MODE, val, CMD_EOF, CMD_PADDING, CMD_PADDING, CMD_PADDING, CMD_PADDING, CMD_PADDING]

/-- Packet built by yurex_read_bbu (src/yurex.c lines 189-210). -/
def yurex_read_bbu_packet : List Nat :=
  [CMD_READ, CMD_EOF, CMD_PADDING, CMD_PADDING, CMD_PADDING, CMD_PADDING, CMD_PADDING, CMD_PADDING]

/-- Packet built by yurex_write_bbu (src/yurex.c lines 212-238): memset to
CMD_PADDING, then opcode, the five value bytes `(bbu >> k) & 0xff`
big-endian, and the EOF marker; byte 7 keeps the padding. -/
def yurex_write_bbu_packet (bbu : Nat) : List Nat :=
  [CMD_WRITE,
   bbu / 2 ^ 32 % 256,
   bbu / 2 ^ 24 % 256,
   bbu / 2 ^ 16 % 256,
   bbu / 2 ^ 8 % 256,
   bbu % 256,
   CMD_EOF,
   CMD_PADDING]

/-- Endpoint descriptor fields inspected by device_added
(src/yurex.c lines 426-441). -/
structure EndpointDesc where
  attributes : Nat
  endpoint_address : Nat
  max_packet_size : Nat
deriving DecidableEq

/-- USB constants used in the endpoint check. -/
def USB_ENDPOINT_ATTR_INTERRUPT : Nat := 0x03
def USB_ENDPOINT_ADDR_DIR_IN : Nat := 0x80

/-- Endpoint qualification test of device_added (src/yurex.c lines 432-436):
interrupt attributes, IN direction bit set, max packet size 8. -/
def qualifies (e : EndpointDesc) : Bool :=
  e.attributes == USB_ENDPOINT_ATTR_INTERRUPT &&
  (e.endpoint_address &&& USB_ENDPOINT_ADDR_DIR_IN) == USB_ENDPOINT_ADDR_DIR_IN &&
  e.max_packet_size == 8

/-- Interface/endpoint scan of device_added (src/yurex.c lines 421-445):
for each interface (skipping NULL active interfaces), take the first
qualifying endpoint; stop at the first interface that has one. -/
def scanInterfaces : Nat → List (Option (List EndpointDesc)) → Option (Nat × EndpointDesc)
  | _, [] => none
  | i, none :: rest => scanInterfaces (i + 1) rest
  | i, some eps :: rest =>
    match eps.find? qualifies with
    | some e => some (i, e)
    | none => scanInterfaces (i + 1) rest

/-- Hot-plug hook device_added (src/yurex.c lines 381-459).  The device is
zero-initialized (memset) with anime = 1, pushed at the front of the
registry BEFORE endpoint discovery; then the endpoint scan runs; then,
unconditionally (a missing endpoint is only logged), set_configuration,
yurex_set_mode(0), yurex_read_bbu and yurex_interrupt are issued.
A NULL configuration returns B_ERROR after registration, before those
commands.  Returns (device, new registry, issued commands, status). -/
def device_added (reg : Registry) (udev : Nat)
    (conf : Option (List (Option (List EndpointDesc)))) :
    DevState × Registry × List Cmd × Int :=
  let dev0 : DevState :=
    { udev := udev, ifno := 0, ep_detect := 0, ep_address := 0, bbu := 0, anime := 1 }
  let reg2 : Registry := { list := udev :: reg.list, count := reg.count + 1 }
  match conf with
  | none => (dev0, reg2, [], B_ERROR)
  | some c =>
    let dev :=
      match scanInterfaces 0 c with
      | some ie =>
        { dev0 with ifno := ie.1, ep_detect := 1, ep_address := ie.2.endpoint_address }
      | none => dev0
    (dev, reg2, [Cmd.setConfiguration, Cmd.setMode 0, Cmd.readRequest, Cmd.armReceive], B_OK)

/-- Unlink of a device from the singly linked gDeviceList
(src/yurex.c lines 472-481): remove the first (pointer-unique) match. -/
def removeFromList (l : List Nat) (u : Nat) : List Nat :=
  match l with
  | [] => []
  | x :: rest => if x = u then rest else x :: removeFromList rest u

/-- Steps performed by device_removed, in their temporal order. -/
inductive RemovalStep where
  | unlinkFromRegistry
  | markStreamingFalse
  | cancelReceive
  | releaseResources
deriving DecidableEq

/-- Hot-plug hook device_removed (src/yurex.c lines 461-494).  Under the
global lock it unlinks the device from the list and decrements the count;
then it sets ep_detect = 0 (forbidding interrupt requeue), then cancels
the queued transfers, then frees the device.  The returned step list
records that temporal order. -/
def device_removed (reg : Registry) (dev : DevState) :
    Registry × DevState × List RemovalStep × Int :=
  ({ list := removeFromList reg.list dev.udev, count := reg.count - 1 },
   { dev with ep_detect := 0 },
   [RemovalStep.unlinkFromRegistry, RemovalStep.markStreamingFalse,
    RemovalStep.cancelReceive, RemovalStep.releaseResources],
   B_OK)

/-- Decimal digit bytes of n, big-endian, as produced for the value part of
snprintf with a decimal conversion (src/yurex.c lines 567, 569). -/
def natDigits (n : Nat) : List Nat :=
  if n < 10 then [48 + n]
  else natDigits (n / 10) ++ [48 + n % 10]
decreasing_by exact Nat.div_lt_self (by omega) (by omega)

/-- Read hook device_read (src/yurex.c lines 557-580).  At position 0 the
staging buffer (16 bytes, so snprintf keeps at most 15 characters while
reporting the untruncated length) is filled with the decimal rendering of
bbu or anime followed by a newline.  Then `len = buf_len - position` is
computed in size_t arithmetic (wrapping modulo 2^64 when position exceeds
buf_len), clamped to the caller's length, and that many bytes starting at
buf[position] are copied.  Returns (staged open state, copied bytes from
the staging buffer, reported length). -/
def device_read (bound : DevState) (o : DevOpen) (position : Nat) (length : Nat) :
    DevOpen × List Nat × Nat :=
  let o1 :=
    if position = 0 then
      let s :=
        if o.type = YUREX_DEVICE_TYPE_BBU then natDigits bound.bbu ++ [10]
        else natDigits bound.anime ++ [10]
      { o with buf := s.take 15, buf_len := s.length }
    else o
  let len0 := (o1.buf_len + UINT64_MOD - position % UINT64_MOD) % UINT64_MOD
  let len := if len0 > length then length else len0
  (o1, (o1.buf.drop position).take len, len)

/-- Digit test of the parse loop in device_write (src/yurex.c line 608). -/
def isDigitByte (c : Nat) : Bool := decide (48 ≤ c ∧ c ≤ 57)

/-- Parse loop of device_write for the BBU endpoint (src/yurex.c lines
606-611): consume leading ASCII digits, accumulating `bbu = bbu*10 + d`
in uint64 arithmetic; stop at the first non-digit byte.  The first
argument is the memory the pointer walk can read, not just the written
data: the C loop has no length bound. -/
def parseBBUAcc : List Nat → Nat → Nat
  | [], bbu => bbu
  | c :: rest, bbu =>
    if isDigitByte c then
      parseBBUAcc rest ((bbu * 10 % UINT64_MOD + (c - 48)) % UINT64_MOD)
    else bbu

/-- Write hook device_write (src/yurex.c lines 582-616).  `data` holds the
written bytes (its length is the C *length) and `trailing` the bytes of
memory that follow them at the buffer, since the digit parse loop at
line 608 is not bounded by *length and keeps reading past the written
data until it meets a non-digit byte.  A zero-length write returns B_OK
at once.  On the animation endpoint the leading byte (inside `data`, as
the branch requires a nonzero length) 0x30 clears anime and issues
set_mode 0xff, anything else sets anime and issues set_mode 0x00.  On
the BBU endpoint the digit parse walks the buffer memory
`data ++ trailing` and a write request is issued with the parsed value.
Returns (device state, issued commands, status). -/
def device_write (bound : DevState) (o : DevOpen) (data trailing : List Nat) :
    DevState × List Cmd × Int :=
  if data.length = 0 then (bound, [], B_OK)
  else if o.type = YUREX_DEVICE_TYPE_ANIME then
    if byteAt data 0 = 48 then
      ({ bound with anime := 0 }, [Cmd.setMode 0xff], B_OK)
    else
      ({ bound with anime := 1 }, [Cmd.setMode 0x00], B_OK)
  else
    (bound, [Cmd.writeRequest (parseBBUAcc (data ++ trailing) 0)], B_OK)

/-- Mathematical big-endian value of a byte list, without wraparound
(the spec's fold `value = value*256 + byte`). -/
def beValue (l : List Nat) : Nat := l.foldl (fun v b => v * 256 + b) 0

/-- Mathematical decimal value of a digit-byte list, without wraparound. -/
def decimalOfDigits (l : List Nat) : Nat := l.foldl (fun a c => a * 10 + (c - 48)) 0

/-- Decimal number denoted by the maximal leading run of ASCII digits
(the spec's description of the Counter-endpoint write parse). -/
def leadingDecimal (data : List Nat) : Nat :=
  decimalOfDigits (data.takeWhile isDigitByte)

--
-- Helper lemmas
--

/-- Bound on the mathematical big-endian fold: starting from acc, folding
bytes below 256 stays below (acc + 1) * 256 ^ length. -/
theorem beFold_lt (l : List Nat) : ∀ acc : Nat, (∀ b ∈ l, b < 256) →
    l.foldl (fun v b => v * 256 + b) acc < (acc + 1) * 256 ^ l.length := by
  induction l with
  | nil => intro acc _; simp
  | cons b t ih =>
    intro acc h
    have hb : b < 256 := h b (by simp)
    have ht : ∀ x ∈ t, x < 256 := fun x hx => h x (by simp [hx])
    have step := ih (acc * 256 + b) ht
    have hle : (acc * 256 + b + 1) * 256 ^ t.length ≤ (acc + 1) * 256 ^ (b :: t).length := by
      have h1 : acc * 256 + b + 1 ≤ (acc + 1) * 256 := by omega
      calc (acc * 256 + b + 1) * 256 ^ t.length
          ≤ (acc + 1) * 256 * 256 ^ t.length := Nat.mul_le_mul_right _ h1
        _ = (acc + 1) * 256 ^ (b :: t).length := by
            rw [List.length_cons, pow_succ]; ring
    calc (b :: t).foldl (fun v b => v * 256 + b) acc
        = t.foldl (fun v b => v * 256 + b) (acc * 256 + b) := by simp
      _ < (acc * 256 + b + 1) * 256 ^ t.length := step
      _ ≤ (acc + 1) * 256 ^ (b :: t).length := hle

/-- Under the byte bound and a no-overflow bound, the uint64 fold of the
decode loop agrees with the mathematical big-endian fold. -/
theorem beFold_mod_eq (l : List Nat) : ∀ acc : Nat, (∀ b ∈ l, b < 256) →
    (acc + 1) * 256 ^ l.length ≤ UINT64_MOD →
    l.foldl bbuStep acc = l.foldl (fun v b => v * 256 + b) acc := by
  induction l with
  | nil => intro acc _ _; rfl
  | cons b t ih =>
    intro acc h hbound
    have hb : b < 256 := h b (by simp)
    have ht : ∀ x ∈ t, x < 256 := fun x hx => h x (by simp [hx])
    have hpow : (1 : Nat) ≤ 256 ^ t.length := Nat.one_le_pow _ _ (by omega)
    have hexp : (acc + 1) * 256 ^ (b :: t).length = (acc + 1) * 256 * 256 ^ t.length := by
      rw [List.length_cons, pow_succ]; ring
    have hstep : acc * 256 + b < UINT64_MOD := by
      have h1 : acc * 256 + b + 1 ≤ (acc + 1) * 256 := by omega
      have h2 : (acc + 1) * 256 ≤ (acc + 1) * 256 * 256 ^ t.length :=
        Nat.le_mul_of_pos_right _ (by omega)
      omega
    have hmod : bbuStep acc b = acc * 256 + b := by
      unfold bbuStep
      rw [Nat.mod_eq_of_lt (by omega : acc * 256 < UINT64_MOD),
          Nat.mod_eq_of_lt hstep]
    have hrec : (acc * 256 + b + 1) * 256 ^ t.length ≤ UINT64_MOD := by
      have h1 : acc * 256 + b + 1 ≤ (acc + 1) * 256 := by omega
      have h2 : (acc * 256 + b + 1) * 256 ^ t.length ≤ (acc + 1) * 256 * 256 ^ t.length :=
        Nat.mul_le_mul_right _ h1
      omega
    calc (b :: t).foldl bbuStep acc
        = t.foldl bbuStep (bbuStep acc b) := by simp
      _ = t.foldl bbuStep (acc * 256 + b) := by rw [hmod]
      _ = t.foldl (fun v b => v * 256 + b) (acc * 256 + b) := ih _ ht hrec
      _ = (b :: t).foldl (fun v b => v * 256 + b) acc := by simp

/-- Byte-bounded packets decode, through the uint64 loop, to the
mathematical big-endian value of bytes 1..5, which is below 2^40. -/
theorem decodeBBU_eq_beValue (req : List Nat) (h : ∀ b ∈ req, b < 256) :
    decodeBBU req = beValue ((req.drop 1).take 5) ∧
    decodeBBU req < 2 ^ 40 := by
  have hsub : ∀ b ∈ (req.drop 1).take 5, b < 256 := by
    intro b hb
    exact h b (List.drop_subset 1 req (List.take_subset 5 _ hb))
  have hlen : ((req.drop 1).take 5).length ≤ 5 := by
    rw [List.length_take]; omega
  have hpow : 256 ^ ((req.drop 1).take 5).length ≤ 256 ^ 5 :=
    Nat.pow_le_pow_right (by omega) hlen
  have hbound : (0 + 1) * 256 ^ ((req.drop 1).take 5).length ≤ UINT64_MOD := by
    have : (256 : Nat) ^ 5 ≤ UINT64_MOD := by norm_num [UINT64_MOD]
    omega
  have heq : decodeBBU req = beValue ((req.drop 1).take 5) :=
    beFold_mod_eq _ 0 hsub hbound
  refine ⟨heq, ?_⟩
  rw [heq]
  have hlt := beFold_lt ((req.drop 1).take 5) 0 hsub
  have h5 : (256 : Nat) ^ 5 = 2 ^ 40 := by norm_num
  have : (0 + 1) * 256 ^ ((req.drop 1).take 5).length ≤ 2 ^ 40 := by omega
  unfold beValue
  omega

/-- Closed form of the completion handler: the state update part and the
command part, with the re-arm decision depending only on ep_detect
(which the handler never modifies). -/
theorem yurex_callback_eq (dev : DevState) (req : List Nat) :
    yurex_callback dev req =
      ((if byteAt req 0 = CMD_VALUE ∨ byteAt req 0 = CMD_READ then
          { dev with bbu := decodeBBU req } else dev),
       (if byteAt req 0 = CMD_VALUE ∨ byteAt req 0 = CMD_READ then []
        else if byteAt req 0 = CMD_ACK ∧ byteAt req 1 = CMD_WRITE then
          [Cmd.readRequest]
        else []) ++
       (if dev.ep_detect ≠ 0 then [Cmd.armReceive] else [])) := by
  unfold yurex_callback
  by_cases hv : byteAt req 0 = CMD_VALUE ∨ byteAt req 0 = CMD_READ <;>
    by_cases he : dev.ep_detect ≠ 0 <;>
    simp [hv, he]

/-- Completion handler with the streaming gate cleared issues no re-arm. -/
theorem callback_no_arm_of_ep_zero (dev : DevState) (req : List Nat)
    (h : dev.ep_detect = 0) : Cmd.armReceive ∉ (yurex_callback dev req).2 := by
  rw [yurex_callback_eq]
  by_cases hv : byteAt req 0 = CMD_VALUE ∨ byteAt req 0 = CMD_READ <;>
    by_cases ha : byteAt req 0 = CMD_ACK ∧ byteAt req 1 = CMD_WRITE <;>
    simp [hv, ha, h]

/-- Congruence of the decimal fold modulo 2^64: folding digit steps over
the same list from accumulators equal mod 2^64 yields results equal
mod 2^64. -/
theorem decimalFold_mod_congr (l : List Nat) : ∀ a b : Nat, a % UINT64_MOD = b % UINT64_MOD →
    (l.foldl (fun x c => x * 10 + (c - 48)) a) % UINT64_MOD =
    (l.foldl (fun x c => x * 10 + (c - 48)) b) % UINT64_MOD := by
  induction l with
  | nil => intro a b hab; simpa using hab
  | cons c t ih =>
    intro a b hab
    have hstep : (a * 10 + (c - 48)) % UINT64_MOD = (b * 10 + (c - 48)) % UINT64_MOD := by
      simp only [UINT64_MOD] at *
      omega
    simpa using ih _ _ hstep

/-- The uint64 parse loop of device_write computes the decimal value of
the maximal leading digit run, reduced modulo 2^64. -/
theorem parseBBUAcc_eq (l : List Nat) : ∀ acc : Nat, acc < UINT64_MOD →
    parseBBUAcc l acc =
      ((l.takeWhile isDigitByte).foldl (fun x c => x * 10 + (c - 48)) acc) % UINT64_MOD := by
  induction l with
  | nil =>
    intro acc hacc
    simp [parseBBUAcc, Nat.mod_eq_of_lt hacc]
  | cons c t ih =>
    intro acc hacc
    by_cases hd : isDigitByte c = true
    · have hacc2 : (acc * 10 % UINT64_MOD + (c - 48)) % UINT64_MOD < UINT64_MOD :=
        Nat.mod_lt _ (by norm_num [UINT64_MOD])
      have hmods : ((acc * 10 % UINT64_MOD + (c - 48)) % UINT64_MOD) % UINT64_MOD =
          (acc * 10 + (c - 48)) % UINT64_MOD := by
        simp only [UINT64_MOD] at *
        omega
      calc parseBBUAcc (c :: t) acc
          = parseBBUAcc t ((acc * 10 % UINT64_MOD + (c - 48)) % UINT64_MOD) := by
            simp [parseBBUAcc, hd]
        _ = ((t.takeWhile isDigitByte).foldl (fun x c => x * 10 + (c - 48))
              ((acc * 10 % UINT64_MOD + (c - 48)) % UINT64_MOD)) % UINT64_MOD := ih _ hacc2
        _ = ((t.takeWhile isDigitByte).foldl (fun x c => x * 10 + (c - 48))
              (acc * 10 + (c - 48))) % UINT64_MOD := decimalFold_mod_congr _ _ _ hmods
        _ = (((c :: t).takeWhile isDigitByte).foldl (fun x c => x * 10 + (c - 48)) acc)
              % UINT64_MOD := by
            simp [List.takeWhile_cons, hd]
    · have hd2 : isDigitByte c = false := by
        cases hb : isDigitByte c
        · rfl
        · exact absurd hb hd
      simp [parseBBUAcc, hd2, List.takeWhile_cons, Nat.mod_eq_of_lt hacc]

/-- When a list contains a byte failing the predicate, its takeWhile
prefix is unchanged by anything appended after the list: the scan stops
inside the list. -/
theorem takeWhile_append_of_exists_not (p : Nat → Bool) (r : List Nat) :
    ∀ l : List Nat, (∃ b ∈ l, p b = false) →
    (l ++ r).takeWhile p = l.takeWhile p := by
  intro l
  induction l with
  | nil =>
    rintro ⟨b, hb, _⟩
    simp at hb
  | cons c t ih =>
    rintro ⟨b, hb, hpb⟩
    cases hc : p c with
    | false => simp [List.takeWhile_cons, hc]
    | true =>
      have hbt : b ∈ t := by
        rcases List.mem_cons.mp hb with rfl | h2
        · simp [hc] at hpb
        · exact h2
      simp [List.takeWhile_cons, hc, ih ⟨b, hbt, hpb⟩]

/-- Length bound for the decimal digit rendering: n < 10^k has at most k
digits (k positive). -/
theorem natDigits_length_le : ∀ k n : Nat, n < 10 ^ k → 0 < k → (natDigits n).length ≤ k := by
  intro k
  induction k with
  | zero => intro n _ hk; omega
  | succ k ih =>
    intro n hn _
    by_cases h10 : n < 10
    · rw [natDigits, if_pos h10]
      simp
    · rw [natDigits, if_neg h10]
      have hk : 0 < k := by
        by_contra hk0
        have : k = 0 := by omega
        subst this
        simp at hn
        omega
      have hdiv : n / 10 < 10 ^ k := by
        rw [pow_succ] at hn
        exact (Nat.div_lt_iff_lt_mul (by omega : 0 < 10)).mpr hn
      have := ih (n / 10) hdiv hk
      simp only [List.length_append, List.length_cons, List.length_nil]
      omega

--
-- Concrete fixtures shared by witnesses
--

/-- Fixture: a streaming device (qualifying endpoint found). -/
def devOn : DevState :=
  { udev := 7, ifno := 0, ep_detect := 1, ep_address := 0x81, bbu := 0, anime := 1 }

/-- Fixture: a device whose streaming gate has been cleared. -/
def devOff : DevState :=
  { udev := 7, ifno := 0, ep_detect := 0, ep_address := 0x81, bbu := 0, anime := 1 }

--
-- Claim theorems
--

/-- Claim C1: for every 8-byte inbound packet whose byte 0 is the VALUE
opcode (0x43) or the READ opcode (0x52), the completion handler sets the
device counter to exactly the big-endian value of bytes 1..5 (the fold
value*256 + byte).  No hypothesis is made on byte 6, so the value is
applied even when byte 6 is not the EOF marker (which the code only
logs). -/
theorem C1_callback_value_updates_counter (dev : DevState) (req : List Nat)
    (_hlen : req.length = 8) (hbytes : ∀ b ∈ req, b < 256)
    (hop : byteAt req 0 = CMD_VALUE ∨ byteAt req 0 = CMD_READ) :
    ((yurex_callback dev req).1).bbu = beValue ((req.drop 1).take 5) := by
  rw [yurex_callback_eq]
  simp [hop, (decodeBBU_eq_beValue req hbytes).1]

/-- Witness for C1: a concrete VALUE packet carrying 300 whose byte 6 is
0xFF (not the EOF marker) still sets the counter to 300. -/
theorem C1_witness :
    ((yurex_callback devOn [0x43, 0, 0, 0, 1, 44, 0xFF, 0]).1).bbu = 300 := by
  have h := C1_callback_value_updates_counter devOn [0x43, 0, 0, 0, 1, 44, 0xFF, 0]
    (by decide) (by decide) (by decide)
  simpa [beValue] using h

/-- Claim C2: every completion handler invocation re-arms the interrupt
receive exactly once, as the last action, iff the device's streaming flag
(ep_detect) is still nonzero; the handler never changes the flag, and
once the flag is zero no invocation issues a re-arm. -/
theorem C2_callback_rearm_gate (dev : DevState) (req : List Nat) :
    ((yurex_callback dev req).1).ep_detect = dev.ep_detect ∧
    (dev.ep_detect ≠ 0 →
      ∃ pre, (yurex_callback dev req).2 = pre ++ [Cmd.armReceive] ∧
        Cmd.armReceive ∉ pre) ∧
    (dev.ep_detect = 0 → Cmd.armReceive ∉ (yurex_callback dev req).2) := by
  refine ⟨?_, ?_, fun h => callback_no_arm_of_ep_zero dev req h⟩
  · rw [yurex_callback_eq]
    by_cases hv : byteAt req 0 = CMD_VALUE ∨ byteAt req 0 = CMD_READ <;> simp [hv]
  · intro h
    rw [yurex_callback_eq]
    refine ⟨(if byteAt req 0 = CMD_VALUE ∨ byteAt req 0 = CMD_READ then []
      else if byteAt req 0 = CMD_ACK ∧ byteAt req 1 = CMD_WRITE then
        [Cmd.readRequest]
      else []), by simp [h], ?_⟩
    by_cases hv : byteAt req 0 = CMD_VALUE ∨ byteAt req 0 = CMD_READ <;>
      by_cases ha : byteAt req 0 = CMD_ACK ∧ byteAt req 1 = CMD_WRITE <;>
      simp [hv, ha]

/-- Witness for C2: on a streaming device an unrecognized packet re-arms
(with an empty prefix), and on a stopped device it does not. -/
theorem C2_witness :
    (∃ pre, (yurex_callback devOn [0, 0, 0, 0, 0, 0, 0, 0]).2 = pre ++ [Cmd.armReceive] ∧
      Cmd.armReceive ∉ pre) ∧
    Cmd.armReceive ∉ (yurex_callback devOff [0, 0, 0, 0, 0, 0, 0, 0]).2 :=
  ⟨(C2_callback_rearm_gate devOn [0, 0, 0, 0, 0, 0, 0, 0]).2.1 (by decide),
   (C2_callback_rearm_gate devOff [0, 0, 0, 0, 0, 0, 0, 0]).2.2 (by decide)⟩

/-- Claim C8: for every inbound packet with byte 0 = ACK (0x21) and
byte 1 = WRITE (0x53), the completion handler issues a read-request
command and leaves the device state (counter and mode included)
unchanged; the only other command is the gated re-arm. -/
theorem C8_callback_ack_write (dev : DevState) (req : List Nat)
    (h0 : byteAt req 0 = CMD_ACK) (h1 : byteAt req 1 = CMD_WRITE) :
    (yurex_callback dev req).1 = dev ∧
    (yurex_callback dev req).2 =
      Cmd.readRequest :: (if dev.ep_detect = 0 then [] else [Cmd.armReceive]) := by
  rw [yurex_callback_eq]
  have hv : ¬ (byteAt req 0 = CMD_VALUE ∨ byteAt req 0 = CMD_READ) := by
    simp [h0, CMD_ACK, CMD_VALUE, CMD_READ]
  by_cases hz : dev.ep_detect = 0
  · simp [hv, h0, h1, hz, CMD_ACK, CMD_VALUE, CMD_READ]
  · simp [hv, h0, h1, hz, CMD_ACK, CMD_VALUE, CMD_READ]

/-- Witness for C8: a concrete ACK-of-WRITE packet on the streaming
fixture yields a read request then the re-arm, with the state intact. -/
theorem C8_witness :
    (yurex_callback devOn [0x21, 0x53, 0, 0, 0, 0, 0, 0]).1 = devOn ∧
    (yurex_callback devOn [0x21, 0x53, 0, 0, 0, 0, 0, 0]).2 =
      Cmd.readRequest :: (if devOn.ep_detect = 0 then [] else [Cmd.armReceive]) :=
  C8_callback_ack_write devOn [0x21, 0x53, 0, 0, 0, 0, 0, 0] (by decide) (by decide)

/-- Claim C6: for every 40-bit value v, the WRITE packet built by
yurex_write_bbu is exactly 8 bytes with byte 0 = 0x53 (WRITE), bytes 1-5
the big-endian representation of v (decoding them with the big-endian
fold returns v), byte 6 = 0x0D (EOF) and the remaining byte 7 equal to
the padding value 0xFF.  The encoding is a function of v, hence
deterministic. -/
theorem C6_write_packet_layout (v : Nat) (hv : v < 2 ^ 40) :
    (yurex_write_bbu_packet v).length = 8 ∧
    byteAt (yurex_write_bbu_packet v) 0 = CMD_WRITE ∧
    beValue (((yurex_write_bbu_packet v).drop 1).take 5) = v ∧
    byteAt (yurex_write_bbu_packet v) 6 = CMD_EOF ∧
    byteAt (yurex_write_bbu_packet v) 7 = CMD_PADDING := by
  refine ⟨rfl, rfl, ?_, rfl, rfl⟩
  show beValue [v / 2 ^ 32 % 256, v / 2 ^ 24 % 256, v / 2 ^ 16 % 256,
    v / 2 ^ 8 % 256, v % 256] = v
  simp only [beValue, List.foldl_cons, List.foldl_nil]
  norm_num
  omega

/-- Witness for C6: the packet for value 300 decodes back to 300 with the
stated layout. -/
theorem C6_witness :
    (yurex_write_bbu_packet 300).length = 8 ∧
    byteAt (yurex_write_bbu_packet 300) 0 = CMD_WRITE ∧
    beValue (((yurex_write_bbu_packet 300).drop 1).take 5) = 300 ∧
    byteAt (yurex_write_bbu_packet 300) 6 = CMD_EOF ∧
    byteAt (yurex_write_bbu_packet 300) 7 = CMD_PADDING :=
  C6_write_packet_layout 300 (by norm_num)

/-- Fixture: the ASCII digit bytes of the decimal string denoting 2^64. -/
def digits2pow64 : List Nat :=
  [49, 56, 52, 52, 54, 55, 52, 52, 48, 55, 51, 55, 48, 57, 53, 53, 49, 54, 49, 54]

/-- Fixture: an open session on the BBU (Counter) endpoint with an empty
staging buffer. -/
def openBBU : DevOpen := { type := YUREX_DEVICE_TYPE_BBU, buf := [], buf_len := 0 }

/-- Fixture: an open session on the animation endpoint with an empty
staging buffer. -/
def openAnime : DevOpen := { type := YUREX_DEVICE_TYPE_ANIME, buf := [], buf_len := 0 }

/-- Counterexample for C7, in two parts.  First, writing the 20-digit
decimal denoting 2^64 followed by a terminating non-digit byte does not
pass the denoted decimal number to the write request: the uint64
accumulator wraps and the code passes 0 (here the digit run ends inside
the data, so the trailing memory - empty in this instance - is not even
consulted).  Second, when the written data is entirely digits (here the
single byte for the digit 1), the unbounded parse loop keeps reading the
memory after the data, and two different trailing-memory contents make
the driver pass two different values: the value is not determined by the
data at all. -/
theorem C7_counterexample :
    (¬ (device_write devOn openBBU (digits2pow64 ++ [120]) []).2.1 =
      [Cmd.writeRequest (leadingDecimal (digits2pow64 ++ [120]))]) ∧
    (device_write devOn openBBU [49] [50, 120]).2.1 ≠
      (device_write devOn openBBU [49] [120]).2.1 := by
  constructor <;> decide

/-- Claim C7 (amended): a zero-length Counter write is a no-op success.
For non-empty data whose maximal leading run of ASCII digits is
terminated by a non-digit byte inside the data, the value passed to the
write request is the decimal number denoted by that run, reduced modulo
2^64 (the accumulator is a uint64), independent of the memory that
follows the written data; everything from the first non-digit onward is
ignored, and data with no leading digit yields the value zero.  (When
the data is entirely digits, the parse loop at yurex.c:608, having no
length bound, continues into the memory beyond the written data, so the
value also depends on that memory.) -/
theorem C7_counter_write_parses_leading_digits (dev : DevState) (o : DevOpen)
    (data trailing : List Nat) (ho : o.type = YUREX_DEVICE_TYPE_BBU) :
    (data = [] → device_write dev o data trailing = (dev, [], B_OK)) ∧
    ((∃ b ∈ data, isDigitByte b = false) →
      device_write dev o data trailing =
        (dev, [Cmd.writeRequest (leadingDecimal data % UINT64_MOD)], B_OK)) ∧
    (data ≠ [] → isDigitByte (byteAt data 0) = false →
      device_write dev o data trailing = (dev, [Cmd.writeRequest 0], B_OK)) := by
  have htype : ¬ o.type = YUREX_DEVICE_TYPE_ANIME := by
    rw [ho]; simp [YUREX_DEVICE_TYPE_BBU, YUREX_DEVICE_TYPE_ANIME]
  refine ⟨?_, ?_, ?_⟩
  · intro h
    subst h
    simp [device_write]
  · rintro ⟨b, hb, hpb⟩
    have hlen : ¬ data.length = 0 := by
      cases data with
      | nil => simp at hb
      | cons c t => simp
    have hparse := parseBBUAcc_eq (data ++ trailing) 0 (by norm_num [UINT64_MOD])
    rw [takeWhile_append_of_exists_not isDigitByte trailing data ⟨b, hb, hpb⟩] at hparse
    simp [device_write, hlen, htype, hparse, leadingDecimal, decimalOfDigits]
  · intro h hd
    have hlen : ¬ data.length = 0 := by simpa using h
    have hparse : parseBBUAcc (data ++ trailing) 0 = 0 := by
      cases data with
      | nil => simp at h
      | cons c t =>
        have hc : byteAt (c :: t) 0 = c := rfl
        rw [hc] at hd
        simp [parseBBUAcc, hd]
    simp [device_write, hlen, htype, hparse]

/-- Witness for C7: the empty write is a no-op, "12345extra" passes 12345
even with a digit byte sitting in the memory right after the data, and
"x" (no leading digit) passes 0. -/
theorem C7_witness :
    device_write devOn openBBU [] [55] = (devOn, [], B_OK) ∧
    device_write devOn openBBU [49, 50, 51, 52, 53, 101, 120, 116, 114, 97] [55] =
      (devOn, [Cmd.writeRequest (leadingDecimal [49, 50, 51, 52, 53, 101, 120, 116, 114, 97]
        % UINT64_MOD)], B_OK) ∧
    device_write devOn openBBU [120] [55] = (devOn, [Cmd.writeRequest 0], B_OK) :=
  ⟨(C7_counter_write_parses_leading_digits devOn openBBU [] [55] rfl).1 rfl,
   (C7_counter_write_parses_leading_digits devOn openBBU
      [49, 50, 51, 52, 53, 101, 120, 116, 114, 97] [55] rfl).2.1 (by decide),
   (C7_counter_write_parses_leading_digits devOn openBBU [120] [55] rfl).2.2
      (by decide) (by decide)⟩

/-- Claim C4 (code behavior at the failing input): with a staged length of
4 bytes, a read at offset 5 with a 1-byte caller buffer reports 1 byte
copied, not the 0 bytes (end of stream) the claim requires: the size_t
subtraction buf_len - position wraps modulo 2^64 and is then clamped to
the caller's length.  For offsets at or below the staged length the code
does report min(length, buf_len - position). -/
theorem C4_read_past_end_reports_nonzero :
    (device_read devOn
      { type := YUREX_DEVICE_TYPE_BBU, buf := [51, 48, 48, 10], buf_len := 4 } 5 1).2.2 = 1 ∧
    (device_read devOn
      { type := YUREX_DEVICE_TYPE_BBU, buf := [51, 48, 48, 10], buf_len := 4 } 4 1).2.2 = 0 := by
  constructor <;> decide

/-- Counterexample for C3: device removal does not perform the steps in
the claimed order mark-streaming-false, cancel, unlink, release; the
recorded trace unlinks from the registry first. -/
theorem C3_counterexample :
    (device_removed { list := [7], count := 1 } devOn).2.2.1 ≠
      [RemovalStep.markStreamingFalse, RemovalStep.cancelReceive,
       RemovalStep.unlinkFromRegistry, RemovalStep.releaseResources] ∧
    (device_removed { list := [7], count := 1 } devOn).2.2.1 =
      [RemovalStep.unlinkFromRegistry, RemovalStep.markStreamingFalse,
       RemovalStep.cancelReceive, RemovalStep.releaseResources] := by
  constructor <;> decide

/-- Claim C3 (amended): device removal performs, in order: (1) unlink the
Device from the Registry (decrementing the count), (2) mark the streaming
flag false, (3) request cancellation of the in-flight receive, and only
after steps 1-3 are complete does it (4) release the Device's resources
(the release step is the last step of the trace). -/
theorem C3_device_removed_order (reg : Registry) (dev : DevState) :
    (device_removed reg dev).2.2.1 =
      [RemovalStep.unlinkFromRegistry, RemovalStep.markStreamingFalse,
       RemovalStep.cancelReceive, RemovalStep.releaseResources] ∧
    ((device_removed reg dev).1).list = removeFromList reg.list dev.udev ∧
    ((device_removed reg dev).1).count = reg.count - 1 ∧
    ((device_removed reg dev).2.1).ep_detect = 0 ∧
    (device_removed reg dev).2.2.1.getLast? = some RemovalStep.releaseResources ∧
    RemovalStep.releaseResources ∉ (device_removed reg dev).2.2.1.take 3 := by
  refine ⟨rfl, rfl, rfl, rfl, rfl, by simp [device_removed]⟩

/-- Counterexample for C5: on a configuration with one interface and no
endpoints at all (so no qualifying endpoint exists), device_added still
issues the arm-receive command at initialization, contrary to the claim
that the receive loop is never armed for such a device. -/
theorem C5_counterexample :
    Cmd.armReceive ∈ (device_added { list := [], count := 0 } 7 (some [some []])).2.2.1 := by
  decide

/-- Claim C5 (amended): a Device for which endpoint discovery finds no
qualifying interrupt-IN endpoint is still added to the Registry and keeps
ep_detect = 0, so the completion handler never re-arms the receive for
it; device_added does, however, issue the initialization commands —
including the initial arm of the interrupt receive — unconditionally. -/
theorem C5_no_endpoint_never_streams (reg : Registry) (udev : Nat)
    (c : List (Option (List EndpointDesc))) (h : scanInterfaces 0 c = none) :
    ((device_added reg udev (some c)).2.1).list = udev :: reg.list ∧
    ((device_added reg udev (some c)).2.1).count = reg.count + 1 ∧
    ((device_added reg udev (some c)).1).ep_detect = 0 ∧
    (device_added reg udev (some c)).2.2.1 =
      [Cmd.setConfiguration, Cmd.setMode 0, Cmd.readRequest, Cmd.armReceive] ∧
    (∀ req, Cmd.armReceive ∉ (yurex_callback (device_added reg udev (some c)).1 req).2) := by
  have hd : (device_added reg udev (some c)).1 =
      { udev := udev, ifno := 0, ep_detect := 0, ep_address := 0, bbu := 0, anime := 1 } := by
    simp [device_added, h]
  refine ⟨by simp [device_added], by simp [device_added], by rw [hd],
    by simp [device_added, h], ?_⟩
  intro req
  exact callback_no_arm_of_ep_zero _ req (by rw [hd])

/-- Witness for C5: the concrete endpoint-less configuration registers the
device with ep_detect = 0 and its completion handler does not re-arm. -/
theorem C5_witness :
    ((device_added { list := [], count := 0 } 7 (some [some []])).1).ep_detect = 0 ∧
    Cmd.armReceive ∉
      (yurex_callback (device_added { list := [], count := 0 } 7 (some [some []])).1
        [0, 0, 0, 0, 0, 0, 0, 0]).2 :=
  ⟨(C5_no_endpoint_never_streams { list := [], count := 0 } 7 [some []] (by decide)).2.2.1,
   (C5_no_endpoint_never_streams { list := [], count := 0 } 7 [some []]
      (by decide)).2.2.2.2 [0, 0, 0, 0, 0, 0, 0, 0]⟩

/-- Reading the animation endpoint at offset 0 with a single-digit anime
value and room for at least 2 bytes yields the digit and a newline. -/
theorem device_read_anime_digit (dev : DevState) (o : DevOpen) (n : Nat)
    (ho : o.type = YUREX_DEVICE_TYPE_ANIME) (hn : 2 ≤ n) (hd : dev.anime < 10) :
    (device_read dev o 0 n).2.1 = [48 + dev.anime, 10] ∧
    (device_read dev o 0 n).2.2 = 2 := by
  unfold device_read
  have htype : ¬ o.type = YUREX_DEVICE_TYPE_BBU := by
    rw [ho]; simp [YUREX_DEVICE_TYPE_BBU, YUREX_DEVICE_TYPE_ANIME]
  have hdig : natDigits dev.anime = [48 + dev.anime] := by rw [natDigits, if_pos hd]
  have hlen0 : (2 + UINT64_MOD - 0 % UINT64_MOD) % UINT64_MOD = 2 := by
    simp [UINT64_MOD]
  have hclamp : ¬ (2 > n) := by omega
  simp [htype, hdig, hlen0, hclamp]
  have h2 : (2 : Nat) % UINT64_MOD = 2 := by norm_num [UINT64_MOD]
  have hnl : ¬ n < 2 % UINT64_MOD := by rw [h2]; omega
  have hn2 : ¬ n < 2 := by omega
  simp [hnl, h2, hn2]

/-- Claim C9: on the Animation endpoint, writing data whose first byte is
0x30 sets anime to 0 and issues set_mode 0xFF, writing any other first
byte sets anime to 1 and issues set_mode 0x00, and a subsequent read at
offset 0 (with room for at least 2 bytes) yields the bytes of the string
0-newline or 1-newline respectively. -/
theorem C9_animation_toggle (dev : DevState) (o o2 : DevOpen)
    (data trailing : List Nat)
    (n : Nat) (hdata : data ≠ []) (ho : o.type = YUREX_DEVICE_TYPE_ANIME)
    (ho2 : o2.type = YUREX_DEVICE_TYPE_ANIME) (hn : 2 ≤ n) :
    (byteAt data 0 = 48 →
      device_write dev o data trailing =
        ({ dev with anime := 0 }, [Cmd.setMode 0xff], B_OK) ∧
      (device_read (device_write dev o data trailing).1 o2 0 n).2.1 = [48, 10] ∧
      (device_read (device_write dev o data trailing).1 o2 0 n).2.2 = 2) ∧
    (byteAt data 0 ≠ 48 →
      device_write dev o data trailing =
        ({ dev with anime := 1 }, [Cmd.setMode 0x00], B_OK) ∧
      (device_read (device_write dev o data trailing).1 o2 0 n).2.1 = [49, 10] ∧
      (device_read (device_write dev o data trailing).1 o2 0 n).2.2 = 2) := by
  have hlen : ¬ data.length = 0 := by simpa using hdata
  constructor
  · intro h48
    have hw : device_write dev o data trailing =
        ({ dev with anime := 0 }, [Cmd.setMode 0xff], B_OK) := by
      simp [device_write, hlen, ho, h48]
    rw [hw]
    have hr := device_read_anime_digit { dev with anime := 0 } o2 n ho2 hn (by simp)
    exact ⟨rfl, by simpa using hr.1, by simpa using hr.2⟩
  · intro h48
    have hw : device_write dev o data trailing =
        ({ dev with anime := 1 }, [Cmd.setMode 0x00], B_OK) := by
      simp [device_write, hlen, ho, h48]
    rw [hw]
    have hr := device_read_anime_digit { dev with anime := 1 } o2 n ho2 hn (by simp)
    exact ⟨rfl, by simpa using hr.1, by simpa using hr.2⟩

/-- Witness for C9: writing the single byte 0x30 then reading yields 0 and
a newline; writing 0x31 then reading yields 1 and a newline. -/
theorem C9_witness :
    device_write devOn openAnime [48] [] =
      ({ devOn with anime := 0 }, [Cmd.setMode 0xff], B_OK) ∧
    (device_read (device_write devOn openAnime [48] []).1 openAnime 0 16).2.1 = [48, 10] ∧
    device_write devOn openAnime [49] [] =
      ({ devOn with anime := 1 }, [Cmd.setMode 0x00], B_OK) ∧
    (device_read (device_write devOn openAnime [49] []).1 openAnime 0 16).2.1 = [49, 10] :=
  ⟨((C9_animation_toggle devOn openAnime openAnime [48] [] 16 (by decide) rfl rfl
      (by omega)).1 (by decide)).1,
   ((C9_animation_toggle devOn openAnime openAnime [48] [] 16 (by decide) rfl rfl
      (by omega)).1 (by decide)).2.1,
   ((C9_animation_toggle devOn openAnime openAnime [49] [] 16 (by decide) rfl rfl
      (by omega)).2 (by decide)).1,
   ((C9_animation_toggle devOn openAnime openAnime [49] [] 16 (by decide) rfl rfl
      (by omega)).2 (by decide)).2.1⟩

/-- Claim C10: the counter stays strictly below 2^40: device_added
initializes it to zero, the completion handler stores a value rebuilt
from exactly five bytes (so below 2^40 for byte-valued packets),
device_write never touches it, and device_read at offset 0 on the
Counter endpoint stages the full decimal rendering of that sub-2^40
value. -/
theorem C10_counter_invariant :
    (∀ reg udev conf, ((device_added reg udev conf).1).bbu = 0) ∧
    (∀ dev req, (∀ b ∈ req, b < 256) → dev.bbu < 2 ^ 40 →
      ((yurex_callback dev req).1).bbu < 2 ^ 40) ∧
    (∀ dev o data trailing, ((device_write dev o data trailing).1).bbu = dev.bbu) ∧
    (∀ dev o n, o.type = YUREX_DEVICE_TYPE_BBU → dev.bbu < 2 ^ 40 →
      ((device_read dev o 0 n).1).buf = natDigits dev.bbu ++ [10]) := by
  refine ⟨?_, ?_, ?_, ?_⟩
  · intro reg udev conf
    cases conf with
    | none => rfl
    | some c =>
      rcases h : scanInterfaces 0 c with _ | ie <;> simp [device_added, h]
  · intro dev req hb hlt
    rw [yurex_callback_eq]
    by_cases hv : byteAt req 0 = CMD_VALUE ∨ byteAt req 0 = CMD_READ
    · simpa [hv] using (decodeBBU_eq_beValue req hb).2
    · simpa [hv] using hlt
  · intro dev o data trailing
    unfold device_write
    split_ifs <;> rfl
  · intro dev o n ho hlt
    have h13 : dev.bbu < 10 ^ 13 := lt_of_lt_of_le hlt (by norm_num)
    have hdl := natDigits_length_le 13 dev.bbu h13 (by omega)
    have hslen : (natDigits dev.bbu ++ [10]).length ≤ 15 := by
      simp only [List.length_append, List.length_cons, List.length_nil]
      omega
    have htake : (natDigits dev.bbu ++ [10]).take 15 = natDigits dev.bbu ++ [10] :=
      List.take_of_length_le hslen
    simp [device_read, ho, htake]

/-- Witness for C10: the fixture device starts at zero, an all-0xFF value
packet still leaves the counter below 2^40, a Counter write leaves the
counter alone, and a Counter read stages its decimal rendering. -/
theorem C10_witness :
    ((device_added { list := [], count := 0 } 7 none).1).bbu = 0 ∧
    ((yurex_callback devOn [0x43, 255, 255, 255, 255, 255, 13, 0]).1).bbu < 2 ^ 40 ∧
    ((device_write devOn openBBU [57] []).1).bbu = devOn.bbu ∧
    ((device_read devOn openBBU 0 16).1).buf = natDigits devOn.bbu ++ [10] :=
  ⟨C10_counter_invariant.1 { list := [], count := 0 } 7 none,
   C10_counter_invariant.2.1 devOn [0x43, 255, 255, 255, 255, 255, 13, 0]
     (by decide) (by decide),
   C10_counter_invariant.2.2.1 devOn openBBU [57] [],
   C10_counter_invariant.2.2.2 devOn openBBU 16 rfl (by decide)⟩
